import Mathlib

/-!
# Verification of the CommonUIAutomation property-verification engine

Shallow embedding of the property-verification engine of the
`picarro/CommonUIAutomation` repository (`framework/base.py` and the
`declared_matches` helpers of the component test suites), together with
theorems settling the frozen specification claims.

Modelling conventions:
* Python strings are Lean `String`s; the Python string methods used by the
  source (`strip`, `lower`, `replace`, `startswith`, `rstrip`, `split`)
  are embedded as functions over `List Char` (`s.data`).
* Python `float(...)` is embedded as exact parsing into `ℚ` (`pyFloat?`):
  it accepts exactly the decimal forms `[±]digits[.digits][e[±]digits]`
  (surrounding whitespace allowed, as `float` strips it).  Two numerals
  with equal rational value always have equal IEEE-double value, so every
  equality this model certifies also holds for the Python comparison.
* Browser interaction (Playwright calls, in-page JavaScript) is embedded
  by passing the browser's observable answers as explicit arguments
  (e.g. a `getActual : String → String` map for computed-style queries),
  and by recording emitted pointer events as an explicit trace.
* Python exceptions are `Except`; a `try/finally` or `try/except` block
  is embedded by explicit handling of the `Except` value.
-/

set_option autoImplicit false

deriving instance DecidableEq for Except

namespace CommonUI

/-! ## Python string primitives over `List Char` -/

/-- Python `str.strip()` with no argument: drop leading and trailing
whitespace. -/
def pystrip (cs : List Char) : List Char :=
  ((cs.dropWhile Char.isWhitespace).reverse.dropWhile Char.isWhitespace).reverse

/-- Python `str.rstrip()` with no argument: drop trailing whitespace. -/
def pyrstrip (cs : List Char) : List Char :=
  (cs.reverse.dropWhile Char.isWhitespace).reverse

/-- Python `str.rstrip(ch)`: drop every trailing occurrence of `ch`. -/
def pyrstripChar (ch : Char) (cs : List Char) : List Char :=
  (cs.reverse.dropWhile (· == ch)).reverse

/-- Python `str.lower()` (ASCII case folding, which is all the engine's
CSS values use). -/
def pylower (cs : List Char) : List Char :=
  cs.map Char.toLower

/-- Python `str.replace("px", "")`: delete every (non-overlapping,
left-to-right) occurrence of the two-character pattern `px`. -/
def stripPx : List Char → List Char
  | 'p' :: 'x' :: cs => stripPx cs
  | c :: cs => c :: stripPx cs
  | [] => []

/-- Python `str.replace("%", "")`: delete every occurrence of `%`. -/
def stripPct : List Char → List Char
  | '%' :: cs => stripPct cs
  | c :: cs => c :: stripPct cs
  | [] => []

/-! ## Python `float()` as exact rational parsing -/

/-- Numeric value of a digit string (most significant first). -/
def digitsToNat (ds : List Char) : Nat :=
  ds.foldl (fun n c => 10 * n + (c.toNat - 48)) 0

/-- Consume an optional sign; `true` means negative. -/
def parseSign : List Char → Bool × List Char
  | '+' :: cs => (false, cs)
  | '-' :: cs => (true, cs)
  | cs => (false, cs)

/-- The exact value of a parsed Python float numeral, kept unreduced as
`num × 10 ^ exp` so that comparisons stay in integer arithmetic. -/
structure PyFloat where
  num : ℤ
  exp : ℤ
  deriving Repr, DecidableEq

/-- The rational value a `PyFloat` denotes. -/
def PyFloat.toRat (x : PyFloat) : ℚ :=
  (x.num : ℚ) * (10 : ℚ) ^ x.exp

/-- Equality of the denoted values, computed in integer arithmetic
(cross-multiplying by the power-of-ten difference).  Two numerals with
equal rational value round to the same IEEE double, so this certifies
Python's `float(a) == float(b)`. -/
def PyFloat.eqb (x y : PyFloat) : Bool :=
  if 0 ≤ x.exp - y.exp then x.num * (10 : ℤ) ^ (x.exp - y.exp).toNat == y.num
  else x.num == y.num * (10 : ℤ) ^ (y.exp - x.exp).toNat

/-- Parse an already-trimmed numeral in the decimal forms accepted by
Python `float()` (`[±]digits[.digits][(e|E)[±]digits]`, at least one
mantissa digit, nothing left over), returning its exact value. -/
def pyFloatCore (cs : List Char) : Option PyFloat :=
  let s1 := parseSign cs
  let ip := s1.2.takeWhile Char.isDigit
  let rest1 := s1.2.dropWhile Char.isDigit
  let fpRest :=
    match rest1 with
    | '.' :: r => (r.takeWhile Char.isDigit, r.dropWhile Char.isDigit)
    | _ => (([] : List Char), rest1)
  let fp := fpRest.1
  if ip.length + fp.length = 0 then none
  else
    let mant : ℤ := digitsToNat (ip ++ fp)
    let signed : ℤ := if s1.1 then -mant else mant
    match fpRest.2 with
    | [] => some ⟨signed, -(fp.length : ℤ)⟩
    | e :: r =>
      if e = 'e' ∨ e = 'E' then
        let s2 := parseSign r
        let ed := s2.2.takeWhile Char.isDigit
        let r2 := s2.2.dropWhile Char.isDigit
        if ed.length = 0 ∨ r2 ≠ [] then none
        else
          let ev : ℤ := if s2.1 then -(digitsToNat ed : ℤ) else (digitsToNat ed : ℤ)
          some ⟨signed, -(fp.length : ℤ) + ev⟩
      else none

/-- Python `float(s)` (model): strip whitespace, then parse; `none`
embeds a raised `ValueError`. -/
def pyFloat? (s : String) : Option PyFloat :=
  pyFloatCore (pystrip s.data)

/-! ## `PropertyChecker._css_values_match` (framework/base.py:945) -/

/-- Python `str(x).strip().lower()`, as applied to both arguments. -/
def cssNormalize (s : String) : List Char :=
  pylower (pystrip s.data)

/-- Python `e_str.replace("px", "").replace("%", "").strip()`. -/
def cleanUnits (cs : List Char) : List Char :=
  pystrip (stripPct (stripPx cs))

/-- Python `if e_clean == "": e_clean = "0"`. -/
def zeroIfEmpty (cs : List Char) : List Char :=
  if cs = [] then ['0'] else cs

/-- Embedding of `PropertyChecker._css_values_match` (framework/base.py
lines 945-963): exact equality after strip+lower, else numeric equality
after deleting `px`/`%` and defaulting an empty residual to `0`; a parse
failure on either side (the caught `ValueError`) yields `false`. -/
def css_values_match (expected actual : String) : Bool :=
  let e := cssNormalize expected
  let a := cssNormalize actual
  if e = a then true
  else
    match pyFloatCore (zeroIfEmpty (cleanUnits e)),
          pyFloatCore (zeroIfEmpty (cleanUnits a)) with
    | some x, some y => x.eqb y
    | _, _ => false

/-! ## `declared_matches` (components/button/test_button.py:367,
components/checkbox/test_checkbox.py:213 — identical bodies) -/

/-- Embedding of the `declared_matches` helper of the component test
suites: exact equality after strip; else, when both sides start with
`var(--`, the expected reference with trailing `)` and whitespace
removed must be the actual either closed by `)` or continued by `,`
(a fallback segment on the actual side); else the two transparent-black
sentinels `rgb(0, 0, 0)` / `rgba(0, 0, 0, 0)` alias each other. -/
def declared_matches (expectedVal actual : String) : Bool :=
  let e := pystrip expectedVal.data
  let a := pystrip actual.data
  if e = a then true
  else if ("var(--".data.isPrefixOf e && "var(--".data.isPrefixOf a) &&
          (let evar := pyrstrip (pyrstripChar ')' e)
           a == evar ++ [')'] || (evar ++ [',']).isPrefixOf a) then true
  else if e = "rgb(0, 0, 0)".data ∧ a = "rgba(0, 0, 0, 0)".data then true
  else if a = "rgb(0, 0, 0)".data ∧ e = "rgba(0, 0, 0, 0)".data then true
  else false

/-- A CSS variable reference without fallback, `var(--name)`. -/
def varRef (name : String) : String :=
  "var(--" ++ name ++ ")"

/-- A CSS variable reference with a fallback segment,
`var(--name, fallback)`. -/
def varRefFb (name fb : String) : String :=
  "var(--" ++ name ++ ", " ++ fb ++ ")"

/-- A well-formed variable name for the reference-matching analysis: no
closing parenthesis, no comma, no whitespace. -/
def varNameOk (name : String) : Prop :=
  ∀ c ∈ name.data, c ≠ ')' ∧ c ≠ ',' ∧ c.isWhitespace = false

instance varNameOk.dec (name : String) : Decidable (varNameOk name) :=
  inferInstanceAs
    (Decidable (∀ c ∈ name.data, c ≠ ')' ∧ c ≠ ',' ∧ c.isWhitespace = false))

/-- A well-formed fallback segment for the reference-matching analysis:
non-empty, with no closing parenthesis and no whitespace (so the
expected side's `rstrip(")")`/`rstrip()` stem construction removes
exactly the final parenthesis). -/
def varFbOk (fb : String) : Prop :=
  fb.data ≠ [] ∧ ∀ c ∈ fb.data, c ≠ ')' ∧ c.isWhitespace = false

instance varFbOk.dec (fb : String) : Decidable (varFbOk fb) :=
  inferInstanceAs
    (Decidable (fb.data ≠ [] ∧ ∀ c ∈ fb.data, c ≠ ')' ∧ c.isWhitespace = false))

/-! ## Fixture loading (framework/base.py:793-943)

A Python `dict[str, str]` is embedded as an insertion-ordered association
list with unique keys, with `dinsert` performing `d[k] = v` (update in
place, append if new) and `dlookup` performing `d.get(k)`.

A fixture file on disk is embedded as `PFile`: whether
`properties_file.exists()` is true, the lines iteration yields, and
whether iterating raises an I/O error after yielding those lines.  Each
loader wraps its read loop in `try/except`; the handler logs and falls
through to `return`, returning the dict as mutated so far, which the
`Except Dict Dict` plumbing below makes explicit. -/

/-- A Python `dict[str, str]` as an insertion-ordered association list. -/
abbrev Dict := List (String × String)

/-- Python `d[k] = v`: overwrite in place if `k` is present, else append. -/
def dinsert (d : Dict) (k v : String) : Dict :=
  if d.any (fun p => p.1 == k) then
    d.map (fun p => if p.1 == k then (k, v) else p)
  else d ++ [(k, v)]

/-- Python `d.get(k)`. -/
def dlookup (d : Dict) (k : String) : Option String :=
  (d.find? (fun p => p.1 == k)).map (fun p => p.2)

/-- A fixture file as the loaders observe it. -/
structure PFile where
  present : Bool
  lines : List String
  readError : Bool

/-- Split at the first occurrence of `sep`; `none` when `sep` is absent
(Python `sep in line` / `line.split(sep, 1)`). -/
def splitFirst (sep : Char) : List Char → Option (List Char × List Char)
  | [] => none
  | c :: cs =>
    if c = sep then some ([], cs)
    else (splitFirst sep cs).map (fun p => (c :: p.1, p.2))

/-- A stripped line the parse loops skip: blank, or a `#` comment. -/
def skipLine (l : List Char) : Bool :=
  l.isEmpty || ['#'].isPrefixOf l

/-- The `key=value` parse shared by the three property loaders
(framework/base.py:808-814, 855-862, 895-903): strip the line, skip it
when blank or a `#` comment, require an `=`, split at the first `=` and
strip both halves. -/
def parseLine (line : String) : Option (String × String) :=
  let l := pystrip line.data
  if skipLine l then none
  else (splitFirst '=' l).map (fun p => (⟨pystrip p.1⟩, ⟨pystrip p.2⟩))

/-- One line of `load_component_properties` (framework/base.py:808-816):
store the parsed pair unless the key is in the `css-var.` namespace. -/
def basePropLine (d : Dict) (line : String) : Dict :=
  match parseLine line with
  | none => d
  | some e =>
    if ("css-var.".data).isPrefixOf e.1.data then d
    else dinsert d e.1 e.2

/-- One line of the prefix-filtering loaders (framework/base.py:855-865
and 895-906): when the parsed key starts with `pfx`, store it with the
prefix removed. -/
def pfxPropLine (pfx : String) (d : Dict) (line : String) : Dict :=
  match parseLine line with
  | none => d
  | some e =>
    if pfx.data.isPrefixOf e.1.data then
      dinsert d ⟨e.1.data.drop pfx.data.length⟩ e.2
    else d

/-- One line of `load_css_variables_from_file` (framework/base.py:919-934):
a `--name: value;` line (any line containing `:`, keeping only `--`-keys,
with trailing semicolons stripped from the value), else a `--name=value`
line. -/
def cssVarLine (d : Dict) (line : String) : Dict :=
  let l := pystrip line.data
  if skipLine l then d
  else
    match splitFirst ':' l with
    | some p =>
      let varName := pystrip p.1
      if ("--".data).isPrefixOf varName then
        dinsert d ⟨varName⟩ ⟨pystrip (pyrstripChar ';' (pystrip p.2))⟩
      else d
    | none =>
      match splitFirst '=' l with
      | some p =>
        let key := pystrip p.1
        if ("--".data).isPrefixOf key then dinsert d ⟨key⟩ ⟨pystrip p.2⟩
        else d
      | none => d

/-- The `try:` block of a loader: fold the parse loop over the file's
lines; when iteration fails with an I/O error, raise (`.error`) carrying
the dict as mutated so far — the handler can still see it because Python
mutates the dict in place. -/
def tryReadFold (step : Dict → String → Dict) (f : PFile) : Except Dict Dict :=
  let d := f.lines.foldl step []
  if f.readError then Except.error d else Except.ok d

/-- The `except Exception: log` handler plus the shared `return`:
either way the mutated dict is returned and nothing propagates. -/
def runHandled (r : Except Dict Dict) : Dict :=
  match r with
  | Except.ok d => d
  | Except.error d => d

/-- Embedding of `PropertyChecker.load_component_properties`
(framework/base.py:793-819). -/
def load_component_properties (f : PFile) : Dict :=
  if !f.present then [] else runHandled (tryReadFold basePropLine f)

/-- The dotted filter built by `load_component_properties_for_variant`
(framework/base.py:848): `f"{variant.lower()}.{state.lower()}.{size.lower()}."`. -/
def variantPfx (variant state size : String) : String :=
  ⟨pylower variant.data ++ '.' :: pylower state.data ++ '.' :: pylower size.data ++ ['.']⟩

/-- Embedding of `PropertyChecker.load_component_properties_for_variant`
(framework/base.py:821-868). -/
def load_component_properties_for_variant (variant state size : String) (f : PFile) : Dict :=
  if !f.present then []
  else runHandled (tryReadFold (pfxPropLine (variantPfx variant state size)) f)

/-- Embedding of `PropertyChecker.load_component_properties_by_prefix`
(framework/base.py:870-909). -/
def load_component_properties_by_prefix (pfx : String) (f : PFile) : Dict :=
  if !f.present then [] else runHandled (tryReadFold (pfxPropLine pfx) f)

/-- Embedding of `PropertyChecker.load_css_variables_from_file`
(framework/base.py:911-939). -/
def load_css_variables_from_file (f : PFile) : Dict :=
  if !f.present then [] else runHandled (tryReadFold cssVarLine f)

/-- Spec-side view of the prefix loaders' output: the `key=value` lines
that survive the blank/comment filter, parsed and stripped. -/
def parsedEntries (lines : List String) : List (String × String) :=
  lines.filterMap parseLine

/-- Spec-side view: keep the parsed entries whose key starts with `pfx`,
with the prefix stripped off the key. -/
def pfxSlice (pfx : String) (lines : List String) : List (String × String) :=
  ((parsedEntries lines).filter (fun e => pfx.data.isPrefixOf e.1.data)).map
    (fun e => (⟨e.1.data.drop pfx.data.length⟩, e.2))

/-- Last-duplicate-wins dictionary of a list of entries. -/
def dictOf (entries : List (String × String)) : Dict :=
  entries.foldl (fun d e => dinsert d e.1 e.2) []

/-! ## `PropertyChecker.get_declared_style` (framework/base.py:438-481)

The in-page walk is embedded over an explicit CSSOM snapshot: the story
document's stylesheet list is a forest of rules (style rules with a
selector and declarations, or grouping rules such as media blocks with
nested rules), in document order.  Selector matching (`el.matches(...)`)
is embedded as a boolean test carried by the element; the element also
carries its inline style declarations. -/

/-- One declaration of a CSS style block. -/
structure Decl where
  name : String
  value : String

/-- A CSSOM rule: a style rule (has `selectorText`) or a grouping rule
(has nested `cssRules`). -/
inductive CSSRule (σ : Type) where
  | styleRule (sel : σ) (decls : List Decl)
  | group (rules : List (CSSRule σ))

/-- CSSOM `style.getPropertyValue(prop)`: the value recorded for `prop`
(last declaration wins within one block), or `''` when unset. -/
def getPropertyValue (decls : List Decl) (propName : String) : String :=
  match decls.reverse.find? (fun d => d.name == propName) with
  | some d => d.value
  | none => ""

/-- The target element: how it answers `el.matches(selector)`, and its
inline `el.style` declarations. -/
structure DomElement (σ : Type) where
  matchesSel : σ → Bool
  inlineStyle : List Decl

/-- The `collectRules` walk of `get_declared_style`: thread the mutable
`value` through every rule in document order, descending into grouping
rules; a matching style rule that sets the property (non-empty value)
overwrites `value`. -/
def collectRules {σ : Type} (propName : String) (el : DomElement σ) :
    List (CSSRule σ) → String → String
  | [], value => value
  | CSSRule.styleRule sel decls :: rs, value =>
    let v := if el.matchesSel sel then getPropertyValue decls propName else ""
    collectRules propName el rs (if v ≠ "" then v else value)
  | CSSRule.group g :: rs, value =>
    collectRules propName el rs (collectRules propName el g value)
termination_by l _ => sizeOf l

/-- Embedding of `PropertyChecker.get_declared_style` (framework/base.py
lines 438-481): `none` for the element means the selector matched no
element (the walk returns `''` at once); otherwise walk all stylesheets,
then let a non-empty inline style override. -/
def get_declared_style {σ : Type} (doc : List (CSSRule σ)) (el : Option (DomElement σ))
    (propName : String) : String :=
  match el with
  | none => ""
  | some el =>
    let value := collectRules propName el doc ""
    let inline := getPropertyValue el.inlineStyle propName
    if inline ≠ "" then inline else value

/-- Spec-side view: the document-order flattening of the rule forest. -/
def flatRules {σ : Type} : List (CSSRule σ) → List (σ × List Decl)
  | [] => []
  | CSSRule.styleRule sel decls :: rs => (sel, decls) :: flatRules rs
  | CSSRule.group g :: rs => flatRules g ++ flatRules rs
termination_by l => sizeOf l

/-- Spec-side view: in document order, the values set for `propName` by
the rules whose selector matches the element. -/
def ruleValues {σ : Type} (propName : String) (el : DomElement σ)
    (doc : List (CSSRule σ)) : List String :=
  (flatRules doc).filterMap (fun p =>
    if el.matchesSel p.1 then
      let v := getPropertyValue p.2 propName
      if v ≠ "" then some v else none
    else none)

/-! ## `PropertyChecker.verify_component_properties` (framework/base.py:965-1009)

The browser's answer to the per-property computed-style query is
embedded as an explicit map `getActual : String → String`.  An expected
value is either a plain string or a `(value, tolerance)` tuple; the
raised `AssertionError` is embedded as a structured report carrying the
mismatch count and one record per mismatched property (each rendered
line of the real message starts `Property '<name>' mismatch: ...`). -/

/-- An entry of the expected-properties mapping: a plain string, or a
`(value, tolerance)` tuple (tolerance may be `None`). -/
inductive ExpectedVal where
  | str (s : String)
  | pair (v : String) (tol : Option ℚ)

/-- The filter of framework/base.py:974-977: an entry is routed to the
CSS-variable verifier (and skipped here) iff its value is a string
starting with `var(--`. -/
def isCssVarRef : ExpectedVal → Bool
  | ExpectedVal.str s => ("var(--".data).isPrefixOf s.data
  | ExpectedVal.pair _ _ => false

/-- One line of the aggregated failure message: the property it names
and the expected/actual pair it reports. -/
structure Mismatch where
  propName : String
  expected : String
  actual : String
  deriving DecidableEq, Repr

/-- The raised errors of `verify_component_properties`: the required-
selector `ValueError`, or the aggregated `AssertionError` with its
mismatch count and per-property lines. -/
inductive VerifyError where
  | missingSelector
  | mismatchReport (count : Nat) (lines : List Mismatch)
  deriving DecidableEq

/-- Python `float(str(x).replace("px", "").replace("%", ""))` as used by the
tolerance branch (framework/base.py:995-996): delete the unit suffixes
and parse (`float` itself strips whitespace); no empty-to-`0` default
here. -/
def pyFloatUnits? (s : String) : Option PyFloat :=
  pyFloat? ⟨stripPct (stripPx s.data)⟩

/-- The per-property body of the verification loop
(framework/base.py:983-1007): numeric-with-tolerance comparison when a
tolerance is supplied and both sides parse (a `ValueError` on either
side falls back to `_css_values_match`), else `_css_values_match`. -/
def checkProperty (getActual : String → String) (propName : String) (exp : ExpectedVal) :
    Option Mismatch :=
  let actual := getActual propName
  match exp with
  | ExpectedVal.str s =>
    if css_values_match s actual then none else some ⟨propName, s, actual⟩
  | ExpectedVal.pair v tol =>
    match tol with
    | some t =>
      match pyFloatUnits? actual, pyFloatUnits? v with
      | some a, some e =>
        if |a.toRat - e.toRat| > t then some ⟨propName, v, actual⟩ else none
      | _, _ =>
        if css_values_match v actual then none else some ⟨propName, v, actual⟩
    | none =>
      if css_values_match v actual then none else some ⟨propName, v, actual⟩

/-- One iteration of the accumulation loop: append the entry's mismatch
line, if any, to the accumulated list (`mismatches.append(...)`). -/
def mismatchStep (getActual : String → String) (acc : List Mismatch)
    (p : String × ExpectedVal) : List Mismatch :=
  match checkProperty getActual p.1 p.2 with
  | some m => acc ++ [m]
  | none => acc

/-- Embedding of `PropertyChecker.verify_component_properties`
(framework/base.py:965-1009): require a selector, drop variable-reference
entries, return at once when nothing is left, else scan every remaining
entry accumulating mismatch lines and raise one aggregated report iff
any line accumulated. -/
def verify_component_properties (selector : Option String)
    (properties : List (String × ExpectedVal)) (getActual : String → String) :
    Except VerifyError Unit :=
  match selector with
  | none => Except.error VerifyError.missingSelector
  | some _ =>
    let regular := properties.filter (fun p => !isCssVarRef p.2)
    if regular.isEmpty then Except.ok ()
    else
      let mismatches := regular.foldl (mismatchStep getActual) []
      if mismatches.isEmpty then Except.ok ()
      else Except.error (VerifyError.mismatchReport mismatches.length mismatches)

/-! ## `PropertyChecker.hold_click_state` (framework/base.py:376-415)

The synthetic-pointer side effects are embedded as an explicit event
trace; the caller-supplied callback is embedded by its outcome (`none` =
hold for the fixed duration instead; `some (.ok v)` = returns `v`;
`some (.error e)` = raises `e`).  The `try/finally` block is embedded by
`tryFinally`, which appends the `finally` events whatever the body's
outcome. -/

/-- A synthetic pointer action, in emission order. -/
inductive MouseEvent where
  | move (x y : ℚ)
  | down
  | up
  deriving DecidableEq, Repr

/-- Playwright `locator.bounding_box()` when non-null. -/
structure BoundingBox where
  x : ℚ
  y : ℚ
  width : ℚ
  height : ℚ

/-- How `hold_click_state` terminates abnormally: the `ValueError` for a
missing bounding box (raised before any pointer event), or the
callback's own exception propagating. -/
inductive HoldError (ε : Type) where
  | noBoundingBox
  | callbackRaised (e : ε)

/-- Python `try: body finally: fin` over an event trace: the `finally`
events are emitted after the body's, whether the body returned or
raised. -/
def tryFinally {ε α : Type} (body : List MouseEvent × Except ε α) (fin : List MouseEvent) :
    List MouseEvent × Except ε α :=
  (body.1 ++ fin, body.2)

/-- The `try` body (framework/base.py:409-413): brief settle sleep, then
run the callback and return its value, or hold for the duration and
return `None`.  No pointer events are emitted by the body itself. -/
def holdBody {ε α : Type} (callback : Option (Except ε α)) :
    List MouseEvent × Except ε (Option α) :=
  match callback with
  | some (Except.error e) => ([], Except.error e)
  | some (Except.ok v) => ([], Except.ok (some v))
  | none => ([], Except.ok none)

/-- Embedding of `PropertyChecker.hold_click_state`
(framework/base.py:376-415): fail fast when the element has no bounding
box; else move to the element's center, press, run the body under
`try/finally`, and release in the `finally`. -/
def hold_click_state {ε α : Type} (box : Option BoundingBox)
    (callback : Option (Except ε α)) :
    List MouseEvent × Except (HoldError ε) (Option α) :=
  match box with
  | none => ([], Except.error HoldError.noBoundingBox)
  | some b =>
    let pressEvents : List MouseEvent :=
      [MouseEvent.move (b.x + b.width / 2) (b.y + b.height / 2), MouseEvent.down]
    let r := tryFinally (holdBody callback) [MouseEvent.up]
    (pressEvents ++ r.1, r.2.mapError HoldError.callbackRaised)

/-! ## `PropertyChecker.verify_all_css_variables` (framework/base.py:1174-1261)

The browser-side observations are embedded as explicit inputs: the
dictionary returned by `get_all_css_variables_from_root` (already
restricted to non-empty values by that function's comprehension), and
the per-variable computed-style fallback probe as a
`String → Option String` map (`none` embeds both a null result and a
swallowed evaluation error).  The local `_norm_color` canonicalizer is
partial: its hex branch calls `int(h[i:j], 16)`, which raises an
uncaught `ValueError` when the (3-digit-expanded, 6-character) hex body
holds a non-hex character; `normColor` therefore returns an `Option`,
and the scan propagates `none` as the uncaught exception. -/

/-- Value of a lowercase hex digit (the canonicalizers lowercase their
input before slicing, so uppercase never reaches `int(_, 16)` here). -/
def hexVal? (c : Char) : Option Nat :=
  if '0' ≤ c ∧ c ≤ '9' then some (c.toNat - 48)
  else if 'a' ≤ c ∧ c ≤ 'f' then some (c.toNat - 87)
  else none

/-- Python `int(s, 16)` on a two-character slice: two hex digits, or one
hex digit padded by whitespace, or a sign followed by one hex digit;
anything else raises (`none`). -/
def pyInt16of2? : List Char → Option Int
  | [a, b] =>
    match hexVal? a, hexVal? b with
    | some x, some y => some ((16 * x + y : Nat) : Int)
    | some x, none => if b.isWhitespace then some ((x : Nat) : Int) else none
    | none, some y =>
      if a.isWhitespace then some ((y : Nat) : Int)
      else if a = '+' then some ((y : Nat) : Int)
      else if a = '-' then some (-((y : Nat) : Int))
      else none
    | none, none => none
  | _ => none

/-- The regex `rgba?\((\d+),\s*(\d+),\s*(\d+)` anchored at the start
(`re.match`): returns the three matched digit-run groups. -/
def parseRgbGroups (cs : List Char) : Option (List Char × List Char × List Char) :=
  if "rgb".data.isPrefixOf cs then
    let r0 := cs.drop 3
    let r1? : Option (List Char) :=
      if "a(".data.isPrefixOf r0 then some (r0.drop 2)
      else if ['('].isPrefixOf r0 then some (r0.drop 1)
      else none
    match r1? with
    | none => none
    | some r1 =>
      let d1 := r1.takeWhile Char.isDigit
      if d1.isEmpty then none
      else
        match r1.dropWhile Char.isDigit with
        | ',' :: r3 =>
          let r4 := r3.dropWhile Char.isWhitespace
          let d2 := r4.takeWhile Char.isDigit
          if d2.isEmpty then none
          else
            match r4.dropWhile Char.isDigit with
            | ',' :: r6 =>
              let r7 := r6.dropWhile Char.isWhitespace
              let d3 := r7.takeWhile Char.isDigit
              if d3.isEmpty then none else some (d1, d2, d3)
            | _ => none
        | _ => none
  else none

/-- The local `_norm_color` of `verify_all_css_variables`
(framework/base.py:1194-1209): falsy input unchanged; else strip+lower;
an `rgb...`-headed value is rewritten from its regex groups (or kept);
a `#`-headed value has a 3-digit body doubled and, when the body then
has 6 characters, is converted through `int(_, 16)` — whose failure is
the uncaught `ValueError`, embedded as `none`. -/
def normColor (s : String) : Option String :=
  if s.data.isEmpty then some s
  else
    let t := pylower (pystrip s.data)
    if "rgb".data.isPrefixOf t then
      match parseRgbGroups t with
      | some g =>
        some ⟨"rgb(".data ++ g.1 ++ ", ".data ++ g.2.1 ++ ", ".data ++ g.2.2 ++ [')']⟩
      | none => some ⟨t⟩
    else if ['#'].isPrefixOf t then
      let h0 := t.drop 1
      let h := if h0.length = 3 then (h0.map (fun c => [c, c])).flatten else h0
      if h.length = 6 then
        match pyInt16of2? (h.take 2), pyInt16of2? ((h.drop 2).take 2),
              pyInt16of2? ((h.drop 4).take 2) with
        | some r, some g, some b =>
          some ⟨"rgb(".data ++ (toString r).data ++ ", ".data ++ (toString g).data
                ++ ", ".data ++ (toString b).data ++ [')']⟩
        | _, _, _ => none
      else some ⟨t⟩
    else some ⟨t⟩

/-- The local `_norm_hex` of `verify_all_css_variables`
(framework/base.py:1211-1220): falsy input unchanged; else strip+lower
and, for a `#`-headed value, double a 3-digit body. -/
def normHex (s : String) : String :=
  if s.data.isEmpty then s
  else
    let t := pylower (pystrip s.data)
    if ['#'].isPrefixOf t then
      let h0 := t.drop 1
      let h := if h0.length = 3 then (h0.map (fun c => [c, c])).flatten else h0
      ⟨'#' :: h⟩
    else ⟨t⟩

/-- The three-way value comparison of framework/base.py:1235-1239
(`_norm_color` equality, or `_norm_hex` equality, or plain strip+lower
equality); `none` when either `_norm_color` call raises. -/
def varValuesAgree (bv pv : String) : Option Bool :=
  match normColor bv, normColor pv with
  | some bn, some pn =>
    some (bn == pn || normHex bv == normHex pv ||
          (⟨pylower (pystrip bv.data)⟩ : String) == (⟨pylower (pystrip pv.data)⟩ : String))
  | _, _ => none

/-- How one fixture entry fares in the reconciliation loop. -/
inductive VarOutcome where
  | matched
  | mismatch
  | missing
  deriving DecidableEq, Repr

/-- One iteration of the fixture loop (framework/base.py:1222-1244) for
the entry `(name, predefined)`: look the variable up in the browser's
root dictionary, fall back to the computed-style probe, treat a null or
empty result as missing-in-browser, and otherwise compare; `.error ()`
is the uncaught `ValueError` from the canonicalizer. -/
def classifyVar (browserVars : Dict) (fallback : String → Option String)
    (name predefined : String) : Except Unit VarOutcome :=
  let bv :=
    match dlookup browserVars name with
    | some v => some v
    | none => fallback name
  match bv with
  | some v =>
    if v = "" then Except.ok VarOutcome.missing
    else
      match varValuesAgree v predefined with
      | none => Except.error ()
      | some true => Except.ok VarOutcome.matched
      | some false => Except.ok VarOutcome.mismatch
  | none => Except.ok VarOutcome.missing

/-- The `browser_value` string recorded in a matched or mismatch
record (guaranteed non-null on those paths). -/
def valOf (browserVars : Dict) (fallback : String → Option String) (name : String) : String :=
  (match dlookup browserVars name with
   | some v => some v
   | none => fallback name).getD ""

/-- The three accumulators of the fixture loop. -/
structure ScanAcc where
  mismatches : List (String × String × String)
  missingInBrowser : Dict
  matched : List (String × String × String)
  deriving DecidableEq

/-- The fixture loop itself, threading the accumulators and propagating
the canonicalizer's `ValueError`. -/
def allVarsScan (browserVars : Dict) (fallback : String → Option String) :
    List (String × String) → ScanAcc → Except Unit ScanAcc
  | [], acc => Except.ok acc
  | e :: rest, acc =>
    match classifyVar browserVars fallback e.1 e.2 with
    | Except.error _ => Except.error ()
    | Except.ok VarOutcome.matched =>
      allVarsScan browserVars fallback rest
        { acc with matched := acc.matched ++ [(e.1, valOf browserVars fallback e.1, e.2)] }
    | Except.ok VarOutcome.mismatch =>
      allVarsScan browserVars fallback rest
        { acc with mismatches := acc.mismatches ++ [(e.1, valOf browserVars fallback e.1, e.2)] }
    | Except.ok VarOutcome.missing =>
      allVarsScan browserVars fallback rest
        { acc with missingInBrowser := acc.missingInBrowser ++ [(e.1, e.2)] }

/-- The successful return value of `verify_all_css_variables`. -/
structure AllVarsReport where
  mismatches : List (String × String × String)
  missingInProperties : Dict
  missingInBrowser : Dict
  matched : List (String × String × String)
  deriving DecidableEq

/-- What `verify_all_css_variables` raises: the aggregated
`AssertionError` (carrying every mismatch and every fixture variable
missing in the browser), or the canonicalizer's uncaught `ValueError`. -/
inductive AllVarsError where
  | valueError
  | aggregated (mismatches : List (String × String × String)) (missingInBrowser : Dict)
  deriving DecidableEq

/-- Spec-side view: the fixture entries the loop records as value
mismatches, with the browser value each record carries. -/
def scanMismatches (bv : Dict) (fb : String → Option String)
    (l : List (String × String)) : List (String × String × String) :=
  (l.filter (fun en => classifyVar bv fb en.1 en.2 == Except.ok VarOutcome.mismatch)).map
    (fun en => (en.1, valOf bv fb en.1, en.2))

/-- Spec-side view: the fixture entries the loop records as missing in
the browser. -/
def scanMissing (bv : Dict) (fb : String → Option String)
    (l : List (String × String)) : Dict :=
  (l.filter (fun en => classifyVar bv fb en.1 en.2 == Except.ok VarOutcome.missing)).map
    (fun en => (en.1, en.2))

/-- Spec-side view: the fixture entries the loop records as matched. -/
def scanMatched (bv : Dict) (fb : String → Option String)
    (l : List (String × String)) : List (String × String × String) :=
  (l.filter (fun en => classifyVar bv fb en.1 en.2 == Except.ok VarOutcome.matched)).map
    (fun en => (en.1, valOf bv fb en.1, en.2))

/-- The filter of framework/base.py:1188: drop the `--tw-` utility
namespace from the browser's root dictionary. -/
def twFilter (d : Dict) : Dict :=
  d.filter (fun p => !(("--tw-".data).isPrefixOf p.1.data))

/-- The browser-only informational remainder (framework/base.py:1245):
the browser's root variables whose key the fixture does not declare. -/
def missingInPropertiesOf (browserVars propertiesVars : Dict) : Dict :=
  browserVars.filter (fun p => !(propertiesVars.any (fun q => q.1 == p.1)))

/-- Embedding of `PropertyChecker.verify_all_css_variables`
(framework/base.py:1174-1261): drop the `--tw-` utility namespace from
the browser's dictionary, scan every fixture entry, compute the
browser-only informational remainder, and raise iff any mismatch or any
fixture variable missing in the browser was accumulated. -/
def verify_all_css_variables (browserRaw : Dict) (fallback : String → Option String)
    (propertiesVars : Dict) : Except AllVarsError AllVarsReport :=
  let browserVars := twFilter browserRaw
  match allVarsScan browserVars fallback propertiesVars ⟨[], [], []⟩ with
  | Except.error _ => Except.error AllVarsError.valueError
  | Except.ok acc =>
    let missingInProperties := missingInPropertiesOf browserVars propertiesVars
    if !acc.mismatches.isEmpty || !acc.missingInBrowser.isEmpty then
      Except.error (AllVarsError.aggregated acc.mismatches acc.missingInBrowser)
    else
      Except.ok ⟨acc.mismatches, missingInProperties, acc.missingInBrowser, acc.matched⟩

end CommonUI

namespace CommonUI

/-! ## Supporting lemmas -/

theorem PyFloat.eqb_iff (x y : PyFloat) : x.eqb y = true ↔ x.toRat = y.toRat := by
  have h10 : (10 : ℚ) ≠ 0 := by norm_num
  have key : x.toRat = y.toRat ↔ (x.num : ℚ) * (10 : ℚ) ^ (x.exp - y.exp) = (y.num : ℚ) := by
    unfold PyFloat.toRat
    rw [zpow_sub₀ h10, ← mul_div_assoc, div_eq_iff (zpow_ne_zero _ h10)]
  unfold PyFloat.eqb
  by_cases hd : 0 ≤ x.exp - y.exp
  · rw [if_pos hd, beq_iff_eq, key]
    have hzn : (10 : ℚ) ^ (x.exp - y.exp) = (10 : ℚ) ^ (x.exp - y.exp).toNat := by
      rw [← zpow_natCast]
      congr 1
      omega
    rw [hzn]
    constructor
    · intro h
      exact_mod_cast congrArg (fun z : ℤ => (z : ℚ)) h
    · intro h
      exact_mod_cast h
  · rw [if_neg hd, beq_iff_eq, key]
    have hzn : (10 : ℚ) ^ (x.exp - y.exp) = ((10 : ℚ) ^ (y.exp - x.exp).toNat)⁻¹ := by
      rw [← zpow_natCast, ← zpow_neg]
      congr 1
      omega
    rw [hzn, ← div_eq_mul_inv,
        div_eq_iff (by positivity : ((10 : ℚ) ^ (y.exp - x.exp).toNat) ≠ 0)]
    constructor
    · intro h
      exact_mod_cast congrArg (fun z : ℤ => (z : ℚ)) h
    · intro h
      exact_mod_cast h

theorem PyFloat.eqb_comm (x y : PyFloat) : x.eqb y = y.eqb x := by
  rw [Bool.eq_iff_iff, PyFloat.eqb_iff, PyFloat.eqb_iff, eq_comm]

theorem css_values_match_numeric (a b : String) (x y : PyFloat)
    (ha : pyFloatCore (zeroIfEmpty (cleanUnits (cssNormalize a))) = some x)
    (hb : pyFloatCore (zeroIfEmpty (cleanUnits (cssNormalize b))) = some y)
    (hxy : x.toRat = y.toRat) : css_values_match a b = true := by
  unfold css_values_match
  by_cases h : cssNormalize a = cssNormalize b
  · simp [h]
  · simp only [if_neg h, ha, hb]
    exact (PyFloat.eqb_iff x y).mpr hxy

theorem dropWhile_eq_self_of_head {p : Char → Bool} :
    ∀ {l : List Char}, (∀ c, l.head? = some c → p c = false) → l.dropWhile p = l
  | [], _ => rfl
  | c :: cs, h => by
    have hc := h c rfl
    rw [List.dropWhile_cons]
    simp [hc]

theorem revDropWhile_eq_self {p : Char → Bool} {l : List Char}
    (h : ∀ c, l.getLast? = some c → p c = false) :
    (l.reverse.dropWhile p).reverse = l := by
  have h1 : ∀ c, l.reverse.head? = some c → p c = false := by
    intro c hc
    rw [List.head?_reverse] at hc
    exact h c hc
  rw [dropWhile_eq_self_of_head h1, List.reverse_reverse]

theorem pystrip_eq_self {l : List Char}
    (h1 : ∀ c, l.head? = some c → c.isWhitespace = false)
    (h2 : ∀ c, l.getLast? = some c → c.isWhitespace = false) :
    pystrip l = l := by
  unfold pystrip
  rw [dropWhile_eq_self_of_head h1]
  exact revDropWhile_eq_self h2

theorem pyrstrip_eq_self {l : List Char}
    (h : ∀ c, l.getLast? = some c → c.isWhitespace = false) : pyrstrip l = l :=
  revDropWhile_eq_self h

theorem pyrstripChar_concat {l : List Char}
    (h : ∀ c, l.getLast? = some c → (c == ')') = false) :
    pyrstripChar ')' (l ++ [')']) = l := by
  unfold pyrstripChar
  have hrev : (l ++ [')']).reverse = ')' :: l.reverse := by simp
  have h1 : ∀ c, l.reverse.head? = some c → (c == ')') = false := by
    intro c hc
    rw [List.head?_reverse] at hc
    exact h c hc
  rw [hrev, List.dropWhile_cons]
  simp [dropWhile_eq_self_of_head h1]

theorem varChain_getLast_prop (name : String) (hn : varNameOk name) :
    ∀ c', ('v' :: 'a' :: 'r' :: '(' :: '-' :: '-' :: name.data).getLast? = some c' →
      (c' == ')') = false ∧ c'.isWhitespace = false := by
  intro c' hc'
  have hd : c' = '-' ∨ c' ∈ name.data := by
    cases hnd : name.data with
    | nil =>
      rw [hnd] at hc'
      simp only [List.getLast?_cons_cons, List.getLast?_singleton] at hc'
      exact Or.inl (Option.some.inj hc').symm
    | cons c0 cs =>
      rw [hnd] at hc'
      simp only [List.getLast?_cons_cons] at hc'
      exact Or.inr (List.mem_of_mem_getLast? hc')
  cases hd with
  | inl h1 =>
    subst h1
    exact ⟨by decide, by decide⟩
  | inr h2 =>
    obtain ⟨hp, _, hws⟩ := hn c' h2
    exact ⟨beq_eq_false_iff_ne.mpr hp, hws⟩

theorem getLast?_varRef (name : String) : (varRef name).data.getLast? = some ')' := by
  rw [show (varRef name).data = ('v' :: 'a' :: 'r' :: '(' :: '-' :: '-' :: name.data) ++ [')'] from rfl]
  exact List.getLast?_concat _

theorem getLast?_varRefFb (name fb : String) :
    (varRefFb name fb).data.getLast? = some ')' := by
  have hL6 : "var(--".data = ['v', 'a', 'r', '(', '-', '-'] := rfl
  have hCS : ", ".data = [',', ' '] := rfl
  have hRp : ")".data = [')'] := rfl
  rw [show (varRefFb name fb).data
      = ('v' :: 'a' :: 'r' :: '(' :: '-' :: '-' :: (name.data ++ ',' :: ' ' :: fb.data)) ++ [')'] by
    simp [varRefFb, String.data_append, hL6, hCS, hRp]]
  exact List.getLast?_concat _

theorem pystrip_varRef (name : String) : pystrip (varRef name).data = (varRef name).data := by
  apply pystrip_eq_self
  · intro c hc
    have h0 : (varRef name).data.head? = some 'v' := rfl
    rw [h0] at hc
    rw [← Option.some.inj hc]
    decide
  · intro c hc
    rw [getLast?_varRef] at hc
    rw [← Option.some.inj hc]
    decide

theorem pystrip_varRefFb (name fb : String) :
    pystrip (varRefFb name fb).data = (varRefFb name fb).data := by
  apply pystrip_eq_self
  · intro c hc
    have h0 : (varRefFb name fb).data.head? = some 'v' := rfl
    rw [h0] at hc
    rw [← Option.some.inj hc]
    decide
  · intro c hc
    rw [getLast?_varRefFb] at hc
    rw [← Option.some.inj hc]
    decide

theorem pyrstripChar_varRef (name : String) (hn : varNameOk name) :
    pyrstripChar ')' (varRef name).data = 'v' :: 'a' :: 'r' :: '(' :: '-' :: '-' :: name.data := by
  rw [show (varRef name).data = ('v' :: 'a' :: 'r' :: '(' :: '-' :: '-' :: name.data) ++ [')'] from rfl]
  exact pyrstripChar_concat (fun c hc => (varChain_getLast_prop name hn c hc).1)

theorem pyrstrip_varChain (name : String) (hn : varNameOk name) :
    pyrstrip ('v' :: 'a' :: 'r' :: '(' :: '-' :: '-' :: name.data)
      = 'v' :: 'a' :: 'r' :: '(' :: '-' :: '-' :: name.data :=
  pyrstrip_eq_self (fun c hc => (varChain_getLast_prop name hn c hc).2)

theorem fbChain_getLast_prop (name fb : String) (hfb : varFbOk fb) :
    ∀ c', ('v' :: 'a' :: 'r' :: '(' :: '-' :: '-'
        :: (name.data ++ ',' :: ' ' :: fb.data)).getLast? = some c' →
      (c' == ')') = false ∧ c'.isWhitespace = false := by
  intro c' hc'
  have hmem : c' ∈ fb.data := by
    rw [show ('v' :: 'a' :: 'r' :: '(' :: '-' :: '-'
          :: (name.data ++ ',' :: ' ' :: fb.data))
        = ('v' :: 'a' :: 'r' :: '(' :: '-' :: '-'
            :: (name.data ++ [',', ' '])) ++ fb.data by simp] at hc'
    rw [List.getLast?_append] at hc'
    cases hfd : fb.data.getLast? with
    | none => exact absurd (List.getLast?_eq_none_iff.mp hfd) hfb.1
    | some x =>
      rw [hfd] at hc'
      simp only [Option.or_some] at hc'
      rw [← Option.some.inj hc']
      exact List.mem_of_mem_getLast? hfd
  obtain ⟨hp, hws⟩ := hfb.2 c' hmem
  exact ⟨beq_eq_false_iff_ne.mpr hp, hws⟩

theorem pyrstripChar_varRefFb (name fb : String) (hfb : varFbOk fb) :
    pyrstripChar ')' (varRefFb name fb).data
      = 'v' :: 'a' :: 'r' :: '(' :: '-' :: '-' :: (name.data ++ ',' :: ' ' :: fb.data) := by
  have hL6 : "var(--".data = ['v', 'a', 'r', '(', '-', '-'] := rfl
  have hCS : ", ".data = [',', ' '] := rfl
  have hRp : ")".data = [')'] := rfl
  rw [show (varRefFb name fb).data
      = ('v' :: 'a' :: 'r' :: '(' :: '-' :: '-'
          :: (name.data ++ ',' :: ' ' :: fb.data)) ++ [')'] by
    simp [varRefFb, String.data_append, hL6, hCS, hRp]]
  exact pyrstripChar_concat (fun c hc => (fbChain_getLast_prop name fb hfb c hc).1)

theorem pyrstrip_fbChain (name fb : String) (hfb : varFbOk fb) :
    pyrstrip ('v' :: 'a' :: 'r' :: '(' :: '-' :: '-'
        :: (name.data ++ ',' :: ' ' :: fb.data))
      = 'v' :: 'a' :: 'r' :: '(' :: '-' :: '-' :: (name.data ++ ',' :: ' ' :: fb.data) :=
  pyrstrip_eq_self (fun c hc => (fbChain_getLast_prop name fb hfb c hc).2)

theorem foldl_mismatchStep (getActual : String → String) :
    ∀ (l : List (String × ExpectedVal)) (acc : List Mismatch),
      l.foldl (mismatchStep getActual) acc
        = acc ++ l.filterMap (fun p => checkProperty getActual p.1 p.2)
  | [], acc => by simp
  | x :: xs, acc => by
    rw [List.foldl_cons, List.filterMap_cons]
    cases h : checkProperty getActual x.1 x.2 with
    | none => simp [mismatchStep, h, foldl_mismatchStep getActual xs acc]
    | some m => simp [mismatchStep, h, foldl_mismatchStep getActual xs (acc ++ [m])]

theorem checkProperty_propName (g : String → String) (n : String) (e : ExpectedVal)
    (m : Mismatch) (h : checkProperty g n e = some m) : m.propName = n := by
  cases e with
  | str s =>
    simp only [checkProperty] at h
    split at h <;> simp_all
    subst h
    rfl
  | pair v tol =>
    cases tol with
    | none =>
      simp only [checkProperty] at h
      split at h <;> simp_all
      subst h
      rfl
    | some t =>
      simp only [checkProperty] at h
      split at h <;> split at h <;> simp_all <;> (subst h; rfl)

theorem filterMap_names {α β γ : Type} (f : α → Option β) (g : β → γ) (h : α → γ)
    (hf : ∀ a m, f a = some m → g m = h a) :
    ∀ l : List α, (l.filterMap f).map g = (l.filter (fun a => (f a).isSome)).map h
  | [] => by simp
  | x :: xs => by
    rw [List.filterMap_cons]
    cases hx : f x with
    | none => simp [List.filter_cons, hx, filterMap_names f g h hf xs]
    | some m => simp [List.filter_cons, hx, filterMap_names f g h hf xs, hf x m hx]

theorem foldl_pfxPropLine (pfx : String) :
    ∀ (lines : List String) (d : Dict),
      lines.foldl (pfxPropLine pfx) d
        = (pfxSlice pfx lines).foldl (fun acc en => dinsert acc en.1 en.2) d
  | [], d => by simp [pfxSlice, parsedEntries]
  | line :: rest, d => by
    rw [List.foldl_cons]
    cases hp : parseLine line with
    | none =>
      have hstep : pfxPropLine pfx d line = d := by
        simp [pfxPropLine, hp]
      have hslice : pfxSlice pfx (line :: rest) = pfxSlice pfx rest := by
        simp [pfxSlice, parsedEntries, List.filterMap_cons, hp]
      rw [hstep, hslice, foldl_pfxPropLine pfx rest d]
    | some en =>
      by_cases hpre : pfx.data.isPrefixOf en.1.data = true
      · have hstep : pfxPropLine pfx d line
            = dinsert d ⟨en.1.data.drop pfx.data.length⟩ en.2 := by
          simp [pfxPropLine, hp, hpre]
        have hslice : pfxSlice pfx (line :: rest)
            = (⟨en.1.data.drop pfx.data.length⟩, en.2) :: pfxSlice pfx rest := by
          simp [pfxSlice, parsedEntries, List.filterMap_cons, hp, List.filter_cons, hpre]
        rw [hstep, hslice, List.foldl_cons, foldl_pfxPropLine pfx rest]
      · have hstep : pfxPropLine pfx d line = d := by
          simp [pfxPropLine, hp, hpre]
        have hslice : pfxSlice pfx (line :: rest) = pfxSlice pfx rest := by
          simp [pfxSlice, parsedEntries, List.filterMap_cons, hp, List.filter_cons, hpre]
        rw [hstep, hslice, foldl_pfxPropLine pfx rest d]

theorem foldl_replace {α : Type} : ∀ (l : List α) (v : α),
    l.foldl (fun _ x => x) v = l.getLast?.getD v
  | [], _ => rfl
  | x :: xs, v => by
    rw [List.foldl_cons, foldl_replace xs x]
    cases xs with
    | nil => rfl
    | cons y ys =>
      rw [List.getLast?_cons_cons]
      cases h : (y :: ys).getLast? with
      | none => exact absurd (List.getLast?_eq_none_iff.mp h) (by simp)
      | some a => rfl

theorem collectRules_eq_foldl {σ : Type} (propName : String) (el : DomElement σ) :
    ∀ (l : List (CSSRule σ)) (v : String),
      collectRules propName el l v = (ruleValues propName el l).foldl (fun _ x => x) v
  | [], v => by simp [collectRules, ruleValues, flatRules]
  | CSSRule.styleRule sel decls :: rs, v => by
    rw [collectRules, collectRules_eq_foldl propName el rs]
    by_cases hm : el.matchesSel sel = true
    · by_cases hv : getPropertyValue decls propName = ""
      · simp [ruleValues, flatRules, List.filterMap_cons, hm, hv]
      · simp [ruleValues, flatRules, List.filterMap_cons, hm, hv]
    · simp [ruleValues, flatRules, List.filterMap_cons, hm]
  | CSSRule.group g :: rs, v => by
    rw [collectRules, collectRules_eq_foldl propName el rs,
        collectRules_eq_foldl propName el g]
    simp [ruleValues, flatRules, List.filterMap_append, List.foldl_append]

theorem allVarsScan_ok (bv : Dict) (fb : String → Option String) :
    ∀ (l : List (String × String)) (acc : ScanAcc),
      (∀ en ∈ l, classifyVar bv fb en.1 en.2 ≠ Except.error ()) →
      allVarsScan bv fb l acc = Except.ok
        ⟨acc.mismatches ++ scanMismatches bv fb l,
         acc.missingInBrowser ++ scanMissing bv fb l,
         acc.matched ++ scanMatched bv fb l⟩
  | [], acc, _ => by
    simp [allVarsScan, scanMismatches, scanMissing, scanMatched]
  | en :: rest, acc, h => by
    have hrest : ∀ x ∈ rest, classifyVar bv fb x.1 x.2 ≠ Except.error () :=
      fun x hx => h x (List.mem_cons_of_mem _ hx)
    have hen := h en (List.mem_cons_self _ _)
    simp only [allVarsScan]
    cases hc : classifyVar bv fb en.1 en.2 with
    | error u => cases u; exact absurd hc hen
    | ok oc =>
      cases oc with
      | matched =>
        simp only [scanMismatches, scanMissing, scanMatched, List.filter_cons, hc]
        rw [allVarsScan_ok bv fb rest _ hrest]
        simp [scanMismatches, scanMissing, scanMatched]
      | mismatch =>
        simp only [scanMismatches, scanMissing, scanMatched, List.filter_cons, hc]
        rw [allVarsScan_ok bv fb rest _ hrest]
        simp [scanMismatches, scanMissing, scanMatched]
      | missing =>
        simp only [scanMismatches, scanMissing, scanMatched, List.filter_cons, hc]
        rw [allVarsScan_ok bv fb rest _ hrest]
        simp [scanMismatches, scanMissing, scanMatched]

/-! ## Claim theorems -/

/-- C1: for every expected-properties mapping and selector,
`verify_component_properties` scans every remaining (non-variable-
reference) entry: its outcome equals the aggregated report of exactly
the mismatching entries — returning normally iff no entry mismatches,
and otherwise raising one `AssertionError` whose count and lines are
precisely the mismatching entries' records in scan order (so it names
each mismatched property, no passing property, and never stops at the
first mismatch); moreover the line-by-line property names are exactly
the names of the mismatching entries. -/
theorem C1_verify_component_properties_aggregates (sel : String)
    (props : List (String × ExpectedVal)) (getActual : String → String) :
    (verify_component_properties (some sel) props getActual =
      (if ((props.filter (fun p => !isCssVarRef p.2)).filterMap
            (fun p => checkProperty getActual p.1 p.2)).isEmpty
       then Except.ok ()
       else Except.error (VerifyError.mismatchReport
         ((props.filter (fun p => !isCssVarRef p.2)).filterMap
            (fun p => checkProperty getActual p.1 p.2)).length
         ((props.filter (fun p => !isCssVarRef p.2)).filterMap
            (fun p => checkProperty getActual p.1 p.2))))) ∧
    ((props.filter (fun p => !isCssVarRef p.2)).filterMap
        (fun p => checkProperty getActual p.1 p.2)).map Mismatch.propName
      = ((props.filter (fun p => !isCssVarRef p.2)).filter
          (fun p => (checkProperty getActual p.1 p.2).isSome)).map Prod.fst := by
  constructor
  · simp only [verify_component_properties]
    rw [foldl_mismatchStep, List.nil_append]
    by_cases hreg : (props.filter (fun p => !isCssVarRef p.2)).isEmpty
    · have hnil : props.filter (fun p => !isCssVarRef p.2) = [] :=
        List.isEmpty_iff.mp hreg
      simp [hnil]
    · rw [if_neg hreg]
  · exact filterMap_names (fun p => checkProperty getActual p.1 p.2)
      Mismatch.propName Prod.fst
      (fun p m hm => checkProperty_propName getActual p.1 p.2 m hm)
      (props.filter (fun p => !isCssVarRef p.2))

/-- C10: the value matcher `_css_values_match` is symmetric — for every
pair of value strings `a` and `b`, `_css_values_match(a, b)` returns the
same boolean as `_css_values_match(b, a)`. -/
theorem C10_css_values_match_symmetric (a b : String) :
    css_values_match a b = css_values_match b a := by
  simp only [css_values_match]
  by_cases h : cssNormalize a = cssNormalize b
  · rw [if_pos h, if_pos h.symm]
  · rw [if_neg h, if_neg (fun hh : cssNormalize b = cssNormalize a => h hh.symm)]
    cases ha : pyFloatCore (zeroIfEmpty (cleanUnits (cssNormalize a))) with
    | none =>
      cases hb : pyFloatCore (zeroIfEmpty (cleanUnits (cssNormalize b))) <;> rfl
    | some x =>
      cases hb : pyFloatCore (zeroIfEmpty (cleanUnits (cssNormalize b))) with
      | none => rfl
      | some y => exact PyFloat.eqb_comm x y

/-- C5 (counterexample): the claim asserts the transparent-black
aliasing holds for every comparison the engine performs between an
expected and an actual value, but `_css_values_match` — the comparison
`verify_component_properties` performs — reports the two sentinels
unequal in both orders: neither strip+lower equality nor the numeric
rule applies to them, and `_css_values_match` has no color clause. -/
theorem C5_match_lacks_alias :
    css_values_match "rgb(0, 0, 0)" "rgba(0, 0, 0, 0)" = false ∧
    css_values_match "rgba(0, 0, 0, 0)" "rgb(0, 0, 0)" = false := by decide

/-- C5 (amended): the `rgb(0, 0, 0)` / `rgba(0, 0, 0, 0)` aliasing holds
in both argument orders under `declared_matches`, the declared-color
comparison of the component test suites — but not under
`_css_values_match`, the computed-property comparison. -/
theorem C5_declared_matches_alias :
    declared_matches "rgb(0, 0, 0)" "rgba(0, 0, 0, 0)" = true ∧
    declared_matches "rgba(0, 0, 0, 0)" "rgb(0, 0, 0)" = true := by decide

/-- C6: whenever both value strings — after strip+lower, deleting `px`
and `%`, and defaulting an empty residual to `0` — parse as numerals
with equal numeric value, `_css_values_match` reports them equivalent;
and in particular `0`, `0px` and the empty string are mutually
equivalent. -/
theorem C6_numeric_unit_equivalence :
    (∀ (a b : String) (x y : PyFloat),
      pyFloatCore (zeroIfEmpty (cleanUnits (cssNormalize a))) = some x →
      pyFloatCore (zeroIfEmpty (cleanUnits (cssNormalize b))) = some y →
      x.toRat = y.toRat →
      css_values_match a b = true) ∧
    (css_values_match "0" "0px" = true ∧ css_values_match "0px" "0" = true ∧
     css_values_match "0" "" = true ∧ css_values_match "" "0" = true ∧
     css_values_match "0px" "" = true ∧ css_values_match "" "0px" = true) :=
  ⟨css_values_match_numeric, by decide⟩

/-- C6 (witness): `2` and `  2PX ` both reduce to the numeral `2`, and
the matcher accepts them. -/
theorem C6_numeric_unit_equivalence_witness : css_values_match "2" " 2PX" = true :=
  C6_numeric_unit_equivalence.1 "2" " 2PX" ⟨2, 0⟩ ⟨2, 0⟩ (by decide) (by decide) rfl

/-- C2: `get_declared_style` returns the value set by the last rule in
document order (grouping rules flattened in place) whose selector
matches the element and which sets the property — each later match
overwriting the earlier, with no specificity computation; a non-empty
inline style, checked last, overrides any rule value; and the result is
the empty string when nothing matched, including when the selector
matched no element at all. -/
theorem C2_get_declared_style_spec {σ : Type} (doc : List (CSSRule σ))
    (el : Option (DomElement σ)) (propName : String) :
    get_declared_style doc el propName =
      (match el with
       | none => ""
       | some e =>
         if getPropertyValue e.inlineStyle propName ≠ "" then
           getPropertyValue e.inlineStyle propName
         else ((ruleValues propName e doc).getLast?).getD "") := by
  cases el with
  | none => rfl
  | some e =>
    simp only [get_declared_style]
    rw [collectRules_eq_foldl, foldl_replace]

/-- C8 (counterexample): the claim says two `var(--x)`-form references
compare equal exactly when the referenced names match, a trailing
fallback segment being ignored — but the code strips fallback text only
from the actual side: an expected `var(--x, 0px)` against an actual
`var(--x)` references the same variable yet compares unequal. -/
theorem C8_counterexample :
    declared_matches "var(--x, 0px)" "var(--x)" = false ∧
    declared_matches "var(--x)" "var(--x, 0px)" = true := by decide

/-- C8 (amended): `declared_matches` strips the trailing `)` (and
trailing whitespace) from the expected reference to form a stem and
accepts exactly an actual equal to the stem closed by `)` or continuing
it with a comma — so the fallback is ignored only on the actual side:
an expected `var(--name)` (no fallback) matches an actual `var(--name)`
(identical) or an actual `var(--name, fallback)`; two references to
different well-formed names compare unequal; and an expected value that
itself carries a (well-formed) fallback matches an actual that is
identical or that extends the same name-and-fallback stem with a
further comma-separated segment, but not the bare reference without the
fallback. -/
theorem C8_var_reference_matching :
    (∀ name fb : String, varNameOk name →
      declared_matches (varRef name) (varRefFb name fb) = true) ∧
    (∀ n₁ n₂ : String, varNameOk n₁ → varNameOk n₂ → n₁ ≠ n₂ →
      declared_matches (varRef n₁) (varRef n₂) = false) ∧
    (∀ name : String, declared_matches (varRef name) (varRef name) = true) ∧
    (∀ name fb extra : String, varFbOk fb →
      declared_matches (varRefFb name fb) (varRefFb name (fb ++ ", " ++ extra)) = true) ∧
    (∀ name fb : String, varFbOk fb →
      declared_matches (varRefFb name fb) (varRef name) = false) := by
  have hL6 : "var(--".data = ['v', 'a', 'r', '(', '-', '-'] := rfl
  have hCS : ", ".data = [',', ' '] := rfl
  have hRp : ")".data = [')'] := rfl
  refine ⟨fun name fb hn => ?_, fun n₁ n₂ hn₁ hn₂ hne => ?_, fun name => by
    simp [declared_matches], fun name fb extra hfb => ?_, fun name fb hfb => ?_⟩
  · simp only [declared_matches]
    rw [pystrip_varRef, pystrip_varRefFb, pyrstripChar_varRef name hn,
        pyrstrip_varChain name hn]
    by_cases heq : (varRef name).data = (varRefFb name fb).data
    · rw [if_pos heq]
    · rw [if_neg heq]
      have hp1 : ("var(--".data.isPrefixOf (varRef name).data) = true := by
        rw [List.isPrefixOf_iff_prefix]
        exact ⟨name.data ++ [')'], rfl⟩
      have hp2 : ("var(--".data.isPrefixOf (varRefFb name fb).data) = true := by
        rw [List.isPrefixOf_iff_prefix]
        refine ⟨name.data ++ ',' :: ' ' :: (fb.data ++ [')']), ?_⟩
        simp [varRefFb, String.data_append, hL6, hCS, hRp]
      have hdisj : ((('v' :: 'a' :: 'r' :: '(' :: '-' :: '-' :: name.data) ++ [',']).isPrefixOf
          (varRefFb name fb).data) = true := by
        rw [List.isPrefixOf_iff_prefix]
        refine ⟨' ' :: (fb.data ++ [')']), ?_⟩
        simp [varRefFb, String.data_append, hL6, hCS, hRp]
      have hcondT : (("var(--".data.isPrefixOf (varRef name).data &&
          "var(--".data.isPrefixOf (varRefFb name fb).data) &&
          ((varRefFb name fb).data
              == ('v' :: 'a' :: 'r' :: '(' :: '-' :: '-' :: name.data) ++ [')'] ||
           (('v' :: 'a' :: 'r' :: '(' :: '-' :: '-' :: name.data) ++ [',']).isPrefixOf
              (varRefFb name fb).data)) = true := by
        rw [hp1, hp2, hdisj]
        simp
      rw [if_pos hcondT]
  · simp only [declared_matches]
    rw [pystrip_varRef, pystrip_varRef, pyrstripChar_varRef n₁ hn₁,
        pyrstrip_varChain n₁ hn₁]
    have hdat : ∀ n : String,
        (varRef n).data = 'v' :: 'a' :: 'r' :: '(' :: '-' :: '-' :: (n.data ++ [')']) := fun _ => rfl
    have hne' : (varRef n₁).data ≠ (varRef n₂).data := by
      intro hEq
      rw [hdat n₁, hdat n₂] at hEq
      simp only [List.cons.injEq, true_and] at hEq
      exact hne (String.ext (List.append_cancel_right hEq))
    rw [if_neg hne']
    have hbeq : ((varRef n₂).data
        == ('v' :: 'a' :: 'r' :: '(' :: '-' :: '-' :: n₁.data) ++ [')']) = false := by
      rw [beq_eq_false_iff_ne]
      intro hEq
      have href : (varRef n₁).data = ('v' :: 'a' :: 'r' :: '(' :: '-' :: '-' :: n₁.data) ++ [')'] := rfl
      exact hne' (href.trans hEq.symm)
    have hpre : ((('v' :: 'a' :: 'r' :: '(' :: '-' :: '-' :: n₁.data) ++ [',']).isPrefixOf
        (varRef n₂).data) = false := by
      by_contra hcontra
      rw [Bool.not_eq_false, List.isPrefixOf_iff_prefix] at hcontra
      have hmem : ',' ∈ (varRef n₂).data := hcontra.subset (by simp)
      rw [hdat n₂] at hmem
      simp at hmem
      exact absurd rfl (hn₂ ',' hmem).2.1
    have hcondF : (("var(--".data.isPrefixOf (varRef n₁).data &&
        "var(--".data.isPrefixOf (varRef n₂).data) &&
        ((varRef n₂).data == ('v' :: 'a' :: 'r' :: '(' :: '-' :: '-' :: n₁.data) ++ [')'] ||
         (('v' :: 'a' :: 'r' :: '(' :: '-' :: '-' :: n₁.data) ++ [',']).isPrefixOf
            (varRef n₂).data)) = false := by
      rw [hbeq, hpre]
      simp
    rw [if_neg (by rw [hcondF]; exact Bool.false_ne_true)]
    have h3 : ¬((varRef n₁).data = "rgb(0, 0, 0)".data ∧
        (varRef n₂).data = "rgba(0, 0, 0, 0)".data) := by
      rintro ⟨hx, -⟩
      rw [hdat n₁] at hx
      simp [show "rgb(0, 0, 0)".data
        = ['r','g','b','(','0',',',' ','0',',',' ','0',')'] from rfl] at hx
    have h4 : ¬((varRef n₂).data = "rgb(0, 0, 0)".data ∧
        (varRef n₁).data = "rgba(0, 0, 0, 0)".data) := by
      rintro ⟨hx, -⟩
      rw [hdat n₂] at hx
      simp [show "rgb(0, 0, 0)".data
        = ['r','g','b','(','0',',',' ','0',',',' ','0',')'] from rfl] at hx
    rw [if_neg h3, if_neg h4]
  · simp only [declared_matches]
    rw [pystrip_varRefFb, pystrip_varRefFb, pyrstripChar_varRefFb name fb hfb,
        pyrstrip_fbChain name fb hfb]
    by_cases heq : (varRefFb name fb).data = (varRefFb name (fb ++ ", " ++ extra)).data
    · rw [if_pos heq]
    · rw [if_neg heq]
      have hp1 : ("var(--".data.isPrefixOf (varRefFb name fb).data) = true := by
        rw [List.isPrefixOf_iff_prefix]
        refine ⟨name.data ++ ',' :: ' ' :: (fb.data ++ [')']), ?_⟩
        simp [varRefFb, String.data_append, hL6, hCS, hRp]
      have hp2 : ("var(--".data.isPrefixOf
          (varRefFb name (fb ++ ", " ++ extra)).data) = true := by
        rw [List.isPrefixOf_iff_prefix]
        refine ⟨name.data ++ ',' :: ' ' :: ((fb ++ ", " ++ extra).data ++ [')']), ?_⟩
        simp [varRefFb, String.data_append, hL6, hCS, hRp]
      have hdisj : ((('v' :: 'a' :: 'r' :: '(' :: '-' :: '-'
          :: (name.data ++ ',' :: ' ' :: fb.data)) ++ [',']).isPrefixOf
          (varRefFb name (fb ++ ", " ++ extra)).data) = true := by
        rw [List.isPrefixOf_iff_prefix]
        refine ⟨' ' :: (extra.data ++ [')']), ?_⟩
        simp [varRefFb, String.data_append, hL6, hCS, hRp]
      have hcondT : (("var(--".data.isPrefixOf (varRefFb name fb).data &&
          "var(--".data.isPrefixOf (varRefFb name (fb ++ ", " ++ extra)).data) &&
          ((varRefFb name (fb ++ ", " ++ extra)).data
              == ('v' :: 'a' :: 'r' :: '(' :: '-' :: '-'
                  :: (name.data ++ ',' :: ' ' :: fb.data)) ++ [')'] ||
           (('v' :: 'a' :: 'r' :: '(' :: '-' :: '-'
                :: (name.data ++ ',' :: ' ' :: fb.data)) ++ [',']).isPrefixOf
              (varRefFb name (fb ++ ", " ++ extra)).data)) = true := by
        rw [hp1, hp2, hdisj]
        simp
      rw [if_pos hcondT]
  · simp only [declared_matches]
    rw [pystrip_varRefFb, pystrip_varRef, pyrstripChar_varRefFb name fb hfb,
        pyrstrip_fbChain name fb hfb]
    have hdatRef : (varRef name).data
        = 'v' :: 'a' :: 'r' :: '(' :: '-' :: '-' :: (name.data ++ [')']) := rfl
    have hdatFb : (varRefFb name fb).data
        = 'v' :: 'a' :: 'r' :: '(' :: '-' :: '-'
            :: (name.data ++ ',' :: ' ' :: (fb.data ++ [')'])) := by
      simp [varRefFb, String.data_append, hL6, hCS, hRp]
    have hne' : (varRefFb name fb).data ≠ (varRef name).data := by
      intro hEq
      rw [hdatFb, hdatRef] at hEq
      simp only [List.cons.injEq, true_and] at hEq
      have := List.append_cancel_left hEq
      simp at this
    rw [if_neg hne']
    have hbeq : ((varRef name).data
        == ('v' :: 'a' :: 'r' :: '(' :: '-' :: '-'
            :: (name.data ++ ',' :: ' ' :: fb.data)) ++ [')']) = false := by
      rw [beq_eq_false_iff_ne]
      intro hEq
      rw [hdatRef] at hEq
      simp only [List.cons_append, List.append_assoc, List.cons.injEq, true_and] at hEq
      have := List.append_cancel_left hEq
      simp at this
    have hpre : ((('v' :: 'a' :: 'r' :: '(' :: '-' :: '-'
        :: (name.data ++ ',' :: ' ' :: fb.data)) ++ [',']).isPrefixOf
        (varRef name).data) = false := by
      by_contra hcontra
      rw [Bool.not_eq_false, List.isPrefixOf_iff_prefix] at hcontra
      obtain ⟨t, ht⟩ := hcontra
      rw [hdatRef] at ht
      simp only [List.cons_append, List.append_assoc, List.cons.injEq, true_and] at ht
      have := List.append_cancel_left ht
      simp at this
    have hcondF : (("var(--".data.isPrefixOf (varRefFb name fb).data &&
        "var(--".data.isPrefixOf (varRef name).data) &&
        ((varRef name).data == ('v' :: 'a' :: 'r' :: '(' :: '-' :: '-'
            :: (name.data ++ ',' :: ' ' :: fb.data)) ++ [')'] ||
         (('v' :: 'a' :: 'r' :: '(' :: '-' :: '-'
              :: (name.data ++ ',' :: ' ' :: fb.data)) ++ [',']).isPrefixOf
            (varRef name).data)) = false := by
      rw [hbeq, hpre]
      simp
    rw [if_neg (by rw [hcondF]; exact Bool.false_ne_true)]
    have h3 : ¬((varRefFb name fb).data = "rgb(0, 0, 0)".data ∧
        (varRef name).data = "rgba(0, 0, 0, 0)".data) := by
      rintro ⟨hx, -⟩
      rw [hdatFb] at hx
      simp [show "rgb(0, 0, 0)".data
        = ['r','g','b','(','0',',',' ','0',',',' ','0',')'] from rfl] at hx
    have h4 : ¬((varRef name).data = "rgb(0, 0, 0)".data ∧
        (varRefFb name fb).data = "rgba(0, 0, 0, 0)".data) := by
      rintro ⟨hx, -⟩
      rw [hdatRef] at hx
      simp [show "rgb(0, 0, 0)".data
        = ['r','g','b','(','0',',',' ','0',',',' ','0',')'] from rfl] at hx
    rw [if_neg h3, if_neg h4]

/-- C8 (witness): `var(--x)` matches `var(--x, 0px)`; `var(--x)` does
not match `var(--y)`; `var(--x, 0px)` matches the extended
`var(--x, 0px, y)` but not the bare `var(--x)`. -/
theorem C8_var_reference_matching_witness :
    declared_matches (varRef "x") (varRefFb "x" "0px") = true ∧
    declared_matches (varRef "x") (varRef "y") = false ∧
    declared_matches (varRefFb "x" "0px") (varRefFb "x" ("0px" ++ ", " ++ "y")) = true ∧
    declared_matches (varRefFb "x" "0px") (varRef "x") = false :=
  ⟨C8_var_reference_matching.1 "x" "0px" (by decide),
   C8_var_reference_matching.2.1 "x" "y" (by decide) (by decide) (by decide),
   C8_var_reference_matching.2.2.2.1 "x" "0px" "y" (by decide),
   C8_var_reference_matching.2.2.2.2 "x" "0px" (by decide)⟩

/-- C9: every fixture loader returns the empty mapping for a missing
file, and an I/O error raised while reading is caught inside the loader
— the `try` block raises (first conjunct of the second group), and the
loader still returns the entries parsed before the error, exactly as if
the readable part had been read cleanly, propagating nothing. -/
theorem C9_fixture_loading_never_raises (lines : List String) (e : Bool)
    (v s z pfx : String) :
    (load_component_properties ⟨false, lines, e⟩ = [] ∧
     load_component_properties_for_variant v s z ⟨false, lines, e⟩ = [] ∧
     load_component_properties_by_prefix pfx ⟨false, lines, e⟩ = [] ∧
     load_css_variables_from_file ⟨false, lines, e⟩ = []) ∧
    (tryReadFold basePropLine ⟨true, lines, true⟩
       = Except.error (lines.foldl basePropLine []) ∧
     load_component_properties ⟨true, lines, true⟩
       = load_component_properties ⟨true, lines, false⟩ ∧
     load_component_properties_for_variant v s z ⟨true, lines, true⟩
       = load_component_properties_for_variant v s z ⟨true, lines, false⟩ ∧
     load_component_properties_by_prefix pfx ⟨true, lines, true⟩
       = load_component_properties_by_prefix pfx ⟨true, lines, false⟩ ∧
     load_css_variables_from_file ⟨true, lines, true⟩
       = load_css_variables_from_file ⟨true, lines, false⟩) :=
  ⟨⟨rfl, rfl, rfl, rfl⟩, ⟨rfl, rfl, rfl, rfl, rfl⟩⟩

/-- C7 (counterexample): the claim says variant/state/size segment case
differences on the key side do not affect matching, but the code
lowercases only the arguments: the fixture key
`PRIMARY.hover.large.color` does not match the prefix built from
`("primary", "hover", "large")`, so the loader returns the empty
mapping where the claim demands `{color: red}`. -/
theorem C7_counterexample :
    load_component_properties_for_variant "primary" "hover" "large"
        ⟨true, ["PRIMARY.hover.large.color=red"], false⟩ = [] ∧
    dlookup (load_component_properties_for_variant "primary" "hover" "large"
        ⟨true, ["PRIMARY.hover.large.color=red"], false⟩) "color" = none := by decide

/-- C7 (amended): `load_component_properties_for_variant` returns
exactly the last-duplicate-wins dictionary of the parsed entries whose
key begins — case-sensitively — with the dotted prefix built from the
lowercased variant/state/size arguments, each key stripped of that
prefix to a bare property name, and no other entries; keys whose own
segments are not already lowercase therefore do not match. -/
theorem C7_variant_slice (v s z : String) (lines : List String) (e : Bool) :
    load_component_properties_for_variant v s z ⟨true, lines, e⟩
      = dictOf (pfxSlice (variantPfx v s z) lines) := by
  have core : lines.foldl (pfxPropLine (variantPfx v s z)) []
      = dictOf (pfxSlice (variantPfx v s z) lines) :=
    foldl_pfxPropLine (variantPfx v s z) lines []
  cases e with
  | false => exact core
  | true => exact core

/-- C3 (counterexample): the fixture entry `--b` has browser value
`blue` against fixture value `red` — a mismatch by the code's own
comparison — yet the aggregated failure is not raised: the entry
`--bad = #ggg` hits the hex branch of the local `_norm_color`, whose
`int(h[i:j], 16)` raises an uncaught `ValueError` first, so the claim's
"raises its aggregated failure iff some fixture variable mismatches or
is missing" is false as stated. -/
theorem C3_counterexample :
    verify_all_css_variables [("--bad", "#ggg"), ("--b", "blue")] (fun _ => none)
        [("--bad", "#ggg"), ("--b", "red")] = Except.error AllVarsError.valueError ∧
    classifyVar (twFilter [("--bad", "#ggg"), ("--b", "blue")]) (fun _ => none)
        "--b" "red" = Except.ok VarOutcome.mismatch := by decide

/-- C3: provided no compared value makes the hex canonicalizer raise
(the `classifyVar` hypothesis), `verify_all_css_variables` raises its
aggregated failure iff some fixture entry's browser value mismatches its
fixture value or some fixture entry has no (non-empty) value in the
browser; and on success the report's `missing_in_properties` is exactly
the browser-only remainder — custom properties the browser exposes but
the fixture does not declare appear only there and never, by
themselves, cause the call to fail. -/
theorem C3_verify_all_css_variables_failure_iff (browserRaw : Dict)
    (fb : String → Option String) (propsVars : Dict)
    (h : ∀ en ∈ propsVars, classifyVar (twFilter browserRaw) fb en.1 en.2 ≠ Except.error ()) :
    ((∃ err, verify_all_css_variables browserRaw fb propsVars = Except.error err) ↔
      (∃ en ∈ propsVars,
        classifyVar (twFilter browserRaw) fb en.1 en.2 = Except.ok VarOutcome.mismatch ∨
        classifyVar (twFilter browserRaw) fb en.1 en.2 = Except.ok VarOutcome.missing)) ∧
    (∀ r, verify_all_css_variables browserRaw fb propsVars = Except.ok r →
      r.missingInProperties = missingInPropertiesOf (twFilter browserRaw) propsVars) := by
  have hscan := allVarsScan_ok (twFilter browserRaw) fb propsVars ⟨[], [], []⟩ h
  have hv : verify_all_css_variables browserRaw fb propsVars =
      (if !(scanMismatches (twFilter browserRaw) fb propsVars).isEmpty
          || !(scanMissing (twFilter browserRaw) fb propsVars).isEmpty then
        Except.error (AllVarsError.aggregated
          (scanMismatches (twFilter browserRaw) fb propsVars)
          (scanMissing (twFilter browserRaw) fb propsVars))
      else Except.ok
        ⟨scanMismatches (twFilter browserRaw) fb propsVars,
         missingInPropertiesOf (twFilter browserRaw) propsVars,
         scanMissing (twFilter browserRaw) fb propsVars,
         scanMatched (twFilter browserRaw) fb propsVars⟩) := by
    simp only [verify_all_css_variables]
    rw [hscan]
    simp
  have hMnil : scanMismatches (twFilter browserRaw) fb propsVars = [] ↔
      ∀ en ∈ propsVars,
        ¬(classifyVar (twFilter browserRaw) fb en.1 en.2 = Except.ok VarOutcome.mismatch) := by
    simp [scanMismatches, List.filter_eq_nil_iff]
  have hBnil : scanMissing (twFilter browserRaw) fb propsVars = [] ↔
      ∀ en ∈ propsVars,
        ¬(classifyVar (twFilter browserRaw) fb en.1 en.2 = Except.ok VarOutcome.missing) := by
    simp [scanMissing, List.filter_eq_nil_iff]
  constructor
  · rw [hv]
    constructor
    · rintro ⟨err, herr⟩
      by_cases hcond : (!(scanMismatches (twFilter browserRaw) fb propsVars).isEmpty
          || !(scanMissing (twFilter browserRaw) fb propsVars).isEmpty) = true
      · simp only [Bool.or_eq_true, Bool.not_eq_true', List.isEmpty_eq_false] at hcond
        cases hcond with
        | inl hA =>
          have hx := (not_congr hMnil).mp hA
          push_neg at hx
          rcases hx with ⟨en, hmem, hP⟩
          exact ⟨en, hmem, Or.inl hP⟩
        | inr hB =>
          have hx := (not_congr hBnil).mp hB
          push_neg at hx
          rcases hx with ⟨en, hmem, hP⟩
          exact ⟨en, hmem, Or.inr hP⟩
      · rw [if_neg hcond] at herr
        exact absurd herr (by simp)
    · rintro ⟨en, hmem, hor⟩
      have hcond : (!(scanMismatches (twFilter browserRaw) fb propsVars).isEmpty
          || !(scanMissing (twFilter browserRaw) fb propsVars).isEmpty) = true := by
        cases hor with
        | inl hP =>
          have hA : scanMismatches (twFilter browserRaw) fb propsVars ≠ [] :=
            fun hnil => (hMnil.mp hnil en hmem) hP
          simp [List.isEmpty_eq_false.mpr hA]
        | inr hP =>
          have hB : scanMissing (twFilter browserRaw) fb propsVars ≠ [] :=
            fun hnil => (hBnil.mp hnil en hmem) hP
          simp [List.isEmpty_eq_false.mpr hB]
      rw [if_pos hcond]
      exact ⟨_, rfl⟩
  · intro r hr
    rw [hv] at hr
    by_cases hcond : (!(scanMismatches (twFilter browserRaw) fb propsVars).isEmpty
        || !(scanMissing (twFilter browserRaw) fb propsVars).isEmpty) = true
    · rw [if_pos hcond] at hr
      exact absurd hr (by simp)
    · rw [if_neg hcond] at hr
      rw [← Except.ok.inj hr]

/-- C3 (witness): a fixture value `blue` against a browser value `red`
is a mismatch, so the aggregated failure is raised. -/
theorem C3_verify_all_css_variables_witness :
    ∃ err, verify_all_css_variables [("--a", "red")] (fun _ => none) [("--a", "blue")]
      = Except.error err :=
  (C3_verify_all_css_variables_failure_iff [("--a", "red")] (fun _ => none)
      [("--a", "blue")] (by decide)).1.mpr
    ⟨("--a", "blue"), by decide, Or.inl (by decide)⟩

/-- C4: whenever `hold_click_state` has emitted the synthetic mouse-down
press, its event trace ends with the mouse-up release — on the normal
path, the fixed-duration path, and the path where the caller-supplied
callback raises (the `finally` release) — and when the bounding box is
missing it fails before emitting any pointer event at all. -/
theorem C4_hold_click_state_releases {ε α : Type} (box : Option BoundingBox)
    (cb : Option (Except ε α)) :
    (MouseEvent.down ∈ (hold_click_state box cb).1 →
      (hold_click_state box cb).1.getLast? = some MouseEvent.up) ∧
    (box = none → (hold_click_state box cb).1 = []) := by
  cases box with
  | none =>
    refine ⟨fun h => ?_, fun _ => rfl⟩
    simp [hold_click_state] at h
  | some b =>
    refine ⟨fun _ => ?_, fun h => by cases h⟩
    cases cb with
    | none => rfl
    | some r => cases r <;> rfl

/-- C4 (witness): with a concrete bounding box and a callback that
raises, the press is emitted and the trace still ends with the release. -/
theorem C4_hold_click_state_releases_witness :
    MouseEvent.down ∈ (@hold_click_state String Nat (some ⟨0, 0, 2, 2⟩)
        (some (Except.error "boom"))).1 ∧
    (@hold_click_state String Nat (some ⟨0, 0, 2, 2⟩)
        (some (Except.error "boom"))).1.getLast? = some MouseEvent.up :=
  ⟨by decide,
   (C4_hold_click_state_releases (some ⟨0, 0, 2, 2⟩) (some (Except.error "boom"))).1
     (by decide)⟩

end CommonUI

